import Mathlib

/-!
Verification of the SFINCS orchestration utilities (`notebooks/sfincs_utils.py`):
the base-model-root resolver `get_sfincs_basemodel_root`, the run orchestrator
`run_sfincs`, and the archive builder `create_sfincs_model_archive`.

Modelling conventions:
* An absolute filesystem path is a `List String` of its components below the
  root, so `/models/event1/scenario.inp` is `["models", "event1", "scenario.inp"]`
  and the root `/` is `[]`.  All paths handed to the Python functions are
  absolute and normalised (the code calls `.resolve()` on its inputs).
* The filesystem is abstracted by two functions: `parse` (the result of
  `SfincsInput.from_file` followed by `to_dict`, `none` when the file is
  missing or unparseable) and `isFile` (existence of a plain file).
* A parsed scenario config is the ordered key/value list produced by the
  config adapter.
* Fallible Python code (raised exceptions) becomes `Except`/`Option` values.
-/

set_option autoImplicit false

/-- An absolute filesystem path, as the list of its components below `/`. -/
abbrev FPath := List String

/-- A parsed scenario configuration: the ordered string-to-string mapping
returned by `SfincsInput.to_dict()`. -/
abbrev Config := List (String × String)

/-! ### String helpers mirroring the Python string operations -/

/-- Does `needle` occur at the head of `hay`?  Mirrors Python prefix matching
during substring search. -/
def startsList : List Char → List Char → Bool
  | [], _ => true
  | _ :: _, [] => false
  | a :: as, b :: bs => a = b && startsList as bs

/-- Does `needle` occur anywhere in `hay`?  Mirrors Python's `needle in hay`
substring test. -/
def containsSeq (needle : List Char) : List Char → Bool
  | [] => needle.isEmpty
  | c :: rest => startsList needle (c :: rest) || containsSeq needle rest

/-- Python `"file" in key`, specialised: the loop in `get_sfincs_basemodel_root`
and `create_sfincs_model_archive` selects entries whose key contains "file". -/
def hasFileSub (key : List Char) : Bool :=
  containsSeq ['f', 'i', 'l', 'e'] key

/-- Python `"../" in value`. -/
def hasUpMarker (value : List Char) : Bool :=
  containsSeq ['.', '.', '/'] value

/-- Python `value.count("../")`: the number of non-overlapping occurrences of
`"../"`, scanning left to right. -/
def countUpMarkers : List Char → Nat
  | '.' :: '.' :: '/' :: rest => countUpMarkers rest + 1
  | _ :: rest => countUpMarkers rest
  | [] => 0

/-- Python `"Simulation stopped" in log` (line 122 of `sfincs_utils.py`). -/
def hasStopped (log : String) : Bool :=
  containsSeq "Simulation stopped".data log.data

/-- The whitespace characters stripped by Python's `str.strip()`. -/
def isPySpace (c : Char) : Bool :=
  c = ' ' || c = '\t' || c = '\n' || c = '\r' || c = '\x0b' || c = '\x0c'

/-- Python `line.strip()`: remove leading and trailing whitespace. -/
def pyStrip (l : List Char) : List Char :=
  ((l.dropWhile isPySpace).reverse.dropWhile isPySpace).reverse

/-- The banner test `set(line.strip()) == set(["-"])` (line 100): the stripped
line is nonempty and consists solely of dash characters. -/
def bannerLine (s : String) : Bool :=
  let t := pyStrip s.data
  !t.isEmpty && t.all (· = '-')

/-! ### ModelRootResolver: `get_sfincs_basemodel_root` (lines 130-150) -/

/-- The loop of `get_sfincs_basemodel_root` (lines 145-148): the running
maximum, over config entries whose key contains "file" and whose value
contains "../", of the value's `"../"` count; `0` when no such entry exists. -/
def maxUpMarkers : Config → Nat
  | [] => 0
  | kv :: rest =>
    if hasFileSub kv.1.data && hasUpMarker kv.2.data then
      max (countUpMarkers kv.2.data) (maxUpMarkers rest)
    else maxUpMarkers rest

/-- Python `Path(p).parents[n]` for an absolute path: defined for
`n + 1 ≤ p.length` (otherwise `IndexError`), yielding the path with the last
`n + 1` components removed, so `parents[0]` is the file's own directory. -/
def parentsIdx (p : FPath) (n : Nat) : Option FPath :=
  if n + 1 ≤ p.length then some (p.take (p.length - (n + 1))) else none

/-- Failure modes of the resolver: the config file cannot be read or parsed
(`SfincsInput.from_file` raises), or `parents[n]` is out of range
(`IndexError`). -/
inductive ResolveError
  | parseError
  | indexError
deriving DecidableEq, Repr

/-- `get_sfincs_basemodel_root` (lines 143-150): parse the config at
`sfincs_inp`, take the maximum `"../"` count `n` over file-valued entries, and
return `sfincs_inp.parents[n]`. -/
def get_sfincs_basemodel_root (parse : FPath → Option Config) (sfincs_inp : FPath) :
    Except ResolveError FPath :=
  match parse sfincs_inp with
  | none => .error .parseError
  | some config =>
    match parentsIdx sfincs_inp (maxUpMarkers config) with
    | none => .error .indexError
    | some base => .ok base

/-- Spec-side description of N (section 4.1 of the spec): "For every
file-valued entry whose value contains one or more parent-directory markers,
count the markers in that value.  Let N be the maximum count across all such
entries (0 if none exist)." -/
def spec_max_markers (config : Config) : Nat :=
  ((config.filter fun kv => hasFileSub kv.1.data && hasUpMarker kv.2.data).map
    fun kv => countUpMarkers kv.2.data).foldr max 0

/-- Spec-side description of "the directory obtained by walking up N levels
from" a directory `dir`. -/
def walk_up (dir : FPath) (n : Nat) : FPath :=
  dir.take (dir.length - n)

/-! ### ArchiveBuilder: `create_sfincs_model_archive` (lines 153-199) -/

/-- Accumulating worker for `splitPosix`: `cur` holds the characters of the
component being read, in reverse. -/
def splitPosixAux (cur : List Char) : List Char → List String
  | [] => if cur.isEmpty then [] else [String.mk cur.reverse]
  | c :: rest =>
    if c = '/' then
      if cur.isEmpty then splitPosixAux [] rest
      else String.mk cur.reverse :: splitPosixAux [] rest
    else splitPosixAux (c :: cur) rest

/-- Python path-component splitting of a POSIX path string: split on `/` and
drop empty components. -/
def splitPosix (s : String) : List String :=
  splitPosixAux [] s.data

/-- Does the path string denote an absolute path (leading `/`)? -/
def valueIsAbs (s : String) : Bool :=
  match s.data with
  | '/' :: _ => true
  | _ => false

/-- Normalisation performed by `Path.resolve()` (no symlinks in the model):
drop `.` components, let `..` remove the preceding component (staying at the
root when there is none), keep the rest. -/
def normSteps : FPath → List String → FPath
  | acc, [] => acc
  | acc, c :: rest =>
    if c = "." then normSteps acc rest
    else if c = ".." then normSteps acc.dropLast rest
    else normSteps (acc ++ [c]) rest

/-- Python `Path(dir, value).resolve()` (line 188): an absolute `value`
replaces `dir`, a relative one is joined onto it, then the result is
normalised. -/
def resolveRel (dir : FPath) (value : String) : FPath :=
  if valueIsAbs value then normSteps [] (splitPosix value)
  else normSteps dir (splitPosix value)

/-- Python `p.relative_to(base)` (line 197): defined only when `base`'s
components are a prefix of `p`'s, otherwise `ValueError`. -/
def relative_to (p base : FPath) : Option FPath :=
  if base.isPrefixOf p then some (p.drop base.length) else none

/-- The loop of lines 186-193: walk the config entries in order; for each
file-valued entry resolve its value against the scenario file's directory;
collect the resolved path when the file exists, otherwise record the entry as
a printed warning.  Returns (collected files, warned entries). -/
def collect_files (isFile : FPath → Bool) (dir : FPath) :
    Config → List FPath × List (String × String)
  | [] => ([], [])
  | kv :: rest =>
    let acc := collect_files isFile dir rest
    if hasFileSub kv.1.data then
      let fp := resolveRel dir kv.2
      if isFile fp then (fp :: acc.1, acc.2) else (acc.1, kv :: acc.2)
    else acc

/-- Failure modes of archive construction that the model keeps: the config is
unreadable/unparseable, `parents[n]` is out of range, or `relative_to` raises
`ValueError` inside the zip-writing loop (line 197) because a collected file
is not below the base folder. -/
inductive ArcError
  | parseError (p : FPath)
  | indexError
  | relativeToError (p base : FPath)
deriving DecidableEq, Repr

/-- The produced archive: its entries as (source path, archive name) pairs in
write order, plus the warnings printed for missing referenced files. -/
structure ArcResult where
  entries : List (FPath × FPath)
  warnings : List (String × String)
deriving DecidableEq, Repr

/-- The zip-writing loop of lines 195-197: each file is stored under
`file.relative_to(base_folder)`; the first file outside `base_folder` aborts
with `ValueError`. -/
def arcEntries (base : FPath) : List FPath → Except ArcError (List (FPath × FPath))
  | [] => .ok []
  | f :: rest =>
    match relative_to f base with
    | none => .error (.relativeToError f base)
    | some r => (arcEntries base rest).map fun t => (f, r) :: t

/-- `create_sfincs_model_archive` (lines 182-197, after destination-name
normalisation, which no claim concerns): `files` starts with the scenario file
itself, the base folder comes from `get_sfincs_basemodel_root`, the config is
re-parsed, existing referenced files are appended (missing ones warned and
omitted), and every collected file is stored under its base-relative name. -/
def create_sfincs_model_archive (parse : FPath → Option Config) (isFile : FPath → Bool)
    (sfincs_inp : FPath) : Except ArcError ArcResult :=
  match get_sfincs_basemodel_root parse sfincs_inp with
  | .error .parseError => .error (.parseError sfincs_inp)
  | .error .indexError => .error .indexError
  | .ok base_folder =>
    match parse sfincs_inp with
    | none => .error (.parseError sfincs_inp)
    | some config =>
      let c := collect_files isFile sfincs_inp.dropLast config
      let files := sfincs_inp :: c.1
      (arcEntries base_folder files).map fun entries => ⟨entries, c.2⟩

/-! ### RunOrchestrator: `run_sfincs` (lines 14-127) -/

/-- The stdout-draining loop of lines 97-103.  The flag is `print_log`; each
iteration first updates it (`if verbose and not print_log: print_log =
set(line.strip()) == set(["-"])`), then echoes the line when the updated flag
is set, and always writes the line to the log.  The result pairs every line,
in order, with whether it was echoed to the console. -/
def drainStdout (verbose : Bool) : Bool → List String → List (String × Bool)
  | _, [] => []
  | printLog, l :: rest =>
    let pl := if verbose && !printLog then bannerLine l else printLog
    (l, pl) :: drainStdout verbose pl rest

/-- The log lines written by one run (lines 96-107): every stdout line in
order, then every stderr line in order — the stderr loop only starts once the
stdout loop has consumed its stream to end-of-file. -/
def drain_log_lines (verbose : Bool) (outL errL : List String) : List String :=
  (drainStdout verbose false outL).map Prod.fst ++ errL

/-- Outcome of a spawned process in the abstract environment: its stdout
lines, stderr lines, and exit code. -/
structure ProcOut where
  out : List String
  err : List String
  code : Int
deriving DecidableEq, Repr

/-- The abstract execution environment of `run_sfincs`: file existence
(`Path.is_file`), config parsing (`SfincsInput.from_file`), the value of
`platform.system()`, and the result of running a command (both the
availability probes of lines 57 and 70 and the simulator itself). -/
structure RunEnv where
  isFile : FPath → Bool
  parse : FPath → Option Config
  system : String
  runProc : List String → ProcOut

/-- Observable side effects of one `run_sfincs` call, in order: filesystem
stat checks, config reads, availability-probe subprocesses, the simulator
spawn, the log-file write, and the log-file re-read. -/
inductive Effect
  | statFile (p : FPath)
  | readConfig (p : FPath)
  | probe (cmd : List String)
  | spawn (cmd : List String)
  | writeLog (p : FPath) (lines : List String)
  | readLog (p : FPath)
deriving DecidableEq, Repr

/-- The distinct failures `run_sfincs` raises, mirroring lines 39-125:
`configurationError` is the `ValueError` for an unsupported `run_method`,
`backendNotFound` the `RuntimeError` for exit code 127, `nonZeroExit` the
`RuntimeError` for any other nonzero exit code, `reportedFailure` the
`RuntimeError` raised when the log of a zero-exit run contains
"Simulation stopped". -/
inductive RunError
  | configurationError (method : String)
  | inpNotFound (p : FPath)
  | parseError (p : FPath)
  | indexError
  | platformError
  | exeMissingPath
  | exeNotFound (p : FPath)
  | backendUnavailable (method : String)
  | backendNotFound (method : String)
  | nonZeroExit (code : Int)
  | reportedFailure (logFile : FPath)
deriving DecidableEq, Repr

/-- The exit-code and log classification of lines 112-125: exit code 127 means
the backend itself is missing, any other nonzero code is a plain failed run,
and a zero-exit run whose log contains "Simulation stopped" is a reported
failure; otherwise the run succeeded. -/
def classify_return (run_method : String) (log_file : FPath) (return_code : Int)
    (log : String) : Except RunError Unit :=
  if return_code = 127 then .error (.backendNotFound run_method)
  else if return_code ≠ 0 then .error (.nonZeroExit return_code)
  else if hasStopped log then .error (.reportedFailure log_file)
  else .ok ()

/-- Render an absolute path the way Python prints a `Path` (POSIX form). -/
def pathStr (p : FPath) : String :=
  "/" ++ String.intercalate "/" p

/-- Python `model_root.relative_to(base_folder).as_posix()` for `base_folder`
a prefix of `model_root` (always the case here): the joined remaining
components, or `"."` when the two coincide. -/
def relPosix (model_root base : FPath) : String :=
  match model_root.drop base.length with
  | [] => "."
  | rest => String.intercalate "/" rest

/-- Command construction of lines 48-81, per backend, together with the
effects it performs: the native branch requires Windows and an existing
executable, the two container branches first run their availability probe and
then assemble the engine-specific bind-mount and working-directory flags. -/
def build_cmd (env : RunEnv) (run_method : String) (sfincs_exe : Option FPath)
    (docker_tag : String) (model_root base_folder : FPath) :
    List Effect × Except RunError (List String) :=
  if run_method = "exe" then
    if env.system ≠ "Windows" then ([], .error .platformError)
    else
      match sfincs_exe with
      | none => ([], .error .exeMissingPath)
      | some p =>
        if env.isFile p then ([.statFile p], .ok [pathStr p])
        else ([.statFile p], .error (.exeNotFound p))
  else if run_method = "docker" then
    let probeCmd := ["docker", "stats", "--no-stream"]
    if (env.runProc probeCmd).code ≠ 0 then
      ([.probe probeCmd], .error (.backendUnavailable "docker"))
    else
      ([.probe probeCmd],
        .ok ["docker", "run", "-v" ++ pathStr base_folder ++ "://data", "-w",
          "/data/" ++ relPosix model_root base_folder,
          "deltares/sfincs-cpu:" ++ docker_tag])
  else
    let probeCmd := ["apptainer", "version"]
    if (env.runProc probeCmd).code ≠ 0 then
      ([.probe probeCmd], .error (.backendUnavailable "apptainer"))
    else
      ([.probe probeCmd],
        .ok ["apptainer", "run", "-B" ++ pathStr base_folder ++ ":/data", "--pwd",
          "/data/" ++ relPosix model_root base_folder,
          "docker://deltares/sfincs-cpu:" ++ docker_tag])

/-- Lines 48-125 of `run_sfincs`, after the base folder has been resolved:
build the command, spawn the simulator, drain its streams into the log file,
and classify the exit code — re-reading the log only when the exit code is
zero (lines 119-125). -/
def run_sfincs_after (env : RunEnv) (run_method : String) (sfincs_exe : Option FPath)
    (docker_tag : String) (verbose : Bool) (model_root base_folder : FPath) :
    List Effect × Except RunError Unit :=
  match build_cmd env run_method sfincs_exe docker_tag model_root base_folder with
  | (es, .error e) => (es, .error e)
  | (es, .ok cmd) =>
    let po := env.runProc cmd
    let logFile := model_root ++ ["sfincs_log.txt"]
    let logLines := drain_log_lines verbose po.out po.err
    let es2 := es ++ [.spawn cmd, .writeLog logFile logLines]
    ((if po.code = 0 then es2 ++ [.readLog logFile] else es2),
      classify_return run_method logFile po.code (String.join logLines))

/-- `run_sfincs` (lines 14-127) as effects plus result: reject an unsupported
`run_method` before any effect (lines 39-40), check the supplied `sfincs_inp`
exists (lines 42-44), resolve the base folder from the file named
`sfincs.inp` in the scenario file's directory (lines 45-46), then build the
command, run, log, and classify. -/
def run_sfincs (env : RunEnv) (sfincs_inp : FPath) (run_method : String)
    (sfincs_exe : Option FPath) (docker_tag : String) (verbose : Bool) :
    List Effect × Except RunError Unit :=
  if run_method ∉ (["exe", "docker", "apptainer"] : List String) then
    ([], .error (.configurationError run_method))
  else if !env.isFile sfincs_inp then
    ([.statFile sfincs_inp], .error (.inpNotFound sfincs_inp))
  else
    let model_root := sfincs_inp.dropLast
    let inpFile := model_root ++ ["sfincs.inp"]
    match get_sfincs_basemodel_root env.parse inpFile with
    | .error .parseError =>
      ([.statFile sfincs_inp, .readConfig inpFile], .error (.parseError inpFile))
    | .error .indexError =>
      ([.statFile sfincs_inp, .readConfig inpFile], .error .indexError)
    | .ok base_folder =>
      let rest := run_sfincs_after env run_method sfincs_exe docker_tag verbose
        model_root base_folder
      ([.statFile sfincs_inp, .readConfig inpFile] ++ rest.1, rest.2)

/-! ### Spec-side descriptions used to state the claims -/

/-- Spec-side description of the referenced files that exist on disk: "every
file-valued config entry, resolved to an absolute path relative to the
scenario file's directory", kept when it exists. -/
def existingRefFiles (isFile : FPath → Bool) (dir : FPath) (cfg : Config) : List FPath :=
  (cfg.filter fun kv => hasFileSub kv.1.data && isFile (resolveRel dir kv.2)).map
    fun kv => resolveRel dir kv.2

/-- Spec-side description of the file-valued config entries whose referenced
file does not exist: these are warned about and omitted. -/
def missingRefEntries (isFile : FPath → Bool) (dir : FPath) (cfg : Config) :
    List (String × String) :=
  cfg.filter fun kv => hasFileSub kv.1.data && !isFile (resolveRel dir kv.2)

/-! ### Helper lemmas -/

/-- Every line handed to the stdout drain is written to the log unchanged. -/
theorem drain_map_fst (v : Bool) (pl : Bool) (lines : List String) :
    (drainStdout v pl lines).map Prod.fst = lines := by
  induction lines generalizing pl with
  | nil => rfl
  | cons l rest ih => simp [drainStdout, ih]

/-- The running maximum computed by the resolver's loop equals the spec's
"maximum count across all such entries". -/
theorem maxUpMarkers_eq_spec (cfg : Config) : maxUpMarkers cfg = spec_max_markers cfg := by
  induction cfg with
  | nil => rfl
  | cons kv rest ih =>
    by_cases h : (hasFileSub kv.1.data && hasUpMarker kv.2.data) = true
    · simp [maxUpMarkers, spec_max_markers, List.filter_cons, h, ih]
    · simp [maxUpMarkers, spec_max_markers, List.filter_cons, h, ih]

/-- The file-collection loop collects exactly the existing referenced files
and warns about exactly the missing ones. -/
theorem collect_files_eq (isFile : FPath → Bool) (dir : FPath) (cfg : Config) :
    collect_files isFile dir cfg =
      (existingRefFiles isFile dir cfg, missingRefEntries isFile dir cfg) := by
  induction cfg with
  | nil => rfl
  | cons kv rest ih =>
    by_cases hf : hasFileSub kv.1.data = true
    · by_cases he : isFile (resolveRel dir kv.2) = true
      · simp [collect_files, existingRefFiles, missingRefEntries, List.filter_cons,
          hf, he, ih, existingRefFiles, missingRefEntries]
      · simp [collect_files, existingRefFiles, missingRefEntries, List.filter_cons,
          hf, he, ih, existingRefFiles, missingRefEntries]
    · simp [collect_files, existingRefFiles, missingRefEntries, List.filter_cons,
        hf, ih, existingRefFiles, missingRefEntries]

/-- When every collected file lies below the base folder, the zip-writing
loop succeeds and stores each file under its base-relative name. -/
theorem arcEntries_ok (base : FPath) (files : List FPath)
    (h : ∀ f ∈ files, base.isPrefixOf f = true) :
    arcEntries base files = .ok (files.map fun f => (f, f.drop base.length)) := by
  induction files with
  | nil => rfl
  | cons f rest ih =>
    have hf : base.isPrefixOf f = true := h f (by simp)
    have hr := ih fun g hg => h g (by simp [hg])
    simp [arcEntries, relative_to, hf, hr, Except.map]

/-- When some collected file lies outside the base folder, the zip-writing
loop aborts with the `ValueError` from `relative_to`. -/
theorem arcEntries_err (base : FPath) (files : List FPath)
    (h : ∃ f ∈ files, base.isPrefixOf f = false) :
    ∃ g, arcEntries base files = .error (.relativeToError g base) := by
  induction files with
  | nil => simp at h
  | cons f rest ih =>
    by_cases hf : base.isPrefixOf f = true
    · rcases h with ⟨g, hg, hgp⟩
      rcases List.mem_cons.mp hg with hg | hg
      · subst hg; rw [hf] at hgp; cases hgp
      · rcases ih ⟨g, hg, hgp⟩ with ⟨g2, hg2⟩
        exact ⟨g2, by simp [arcEntries, relative_to, hf, hg2, Except.map]⟩
    · exact ⟨f, by simp [arcEntries, relative_to, hf]⟩

/-- An existing referenced file named by a file-valued entry is among the
collected files. -/
theorem mem_collect_files (isFile : FPath → Bool) (dir : FPath) (cfg : Config)
    (k v : String) (hm : (k, v) ∈ cfg) (hf : hasFileSub k.data = true)
    (he : isFile (resolveRel dir v) = true) :
    resolveRel dir v ∈ (collect_files isFile dir cfg).1 := by
  induction cfg with
  | nil => simp at hm
  | cons kv rest ih =>
    rcases List.mem_cons.mp hm with hm | hm
    · subst hm; simp [collect_files, hf, he]
    · have := ih hm
      by_cases hf2 : hasFileSub kv.1.data = true
      · by_cases he2 : isFile (resolveRel dir kv.2) = true
        · simp [collect_files, hf2, he2, this]
        · simp [collect_files, hf2, he2, this]
      · simp [collect_files, hf2, this]

/-- The echo flag attached to the line at index `i` by the stdout drain (with
arbitrary initial flag `pl`) is set exactly when the flag started set or some
line at index at most `i` is a banner line. -/
theorem drain_flags_iff (lines : List String) : ∀ (pl : Bool) (i : Nat), i < lines.length →
    (((drainStdout true pl lines).map Prod.snd).getD i false = true ↔
      (pl = true ∨ ∃ j, j ≤ i ∧ bannerLine (lines.getD j "") = true)) := by
  induction lines with
  | nil => intro pl i h; simp at h
  | cons l rest ih =>
    intro pl i h
    have hpl : (if true && !pl then bannerLine l else pl) = (pl || bannerLine l) := by
      cases pl <;> simp
    cases i with
    | zero =>
      simp only [drainStdout, hpl, List.map_cons, List.getD_cons_zero]
      simp [Nat.le_zero]
    | succ i2 =>
      have h2 : i2 < rest.length := by
        simpa using Nat.lt_of_succ_lt_succ h
      simp only [drainStdout, hpl, List.map_cons, List.getD_cons_succ]
      rw [ih (pl || bannerLine l) i2 h2]
      constructor
      · rintro (hb | ⟨j, hj, hb⟩)
        · rcases (Bool.or_eq_true _ _).mp hb with hb | hb
          · exact Or.inl hb
          · exact Or.inr ⟨0, by omega, by simpa using hb⟩
        · exact Or.inr ⟨j + 1, by omega, by simpa using hb⟩
      · rintro (hb | ⟨j, hj, hb⟩)
        · exact Or.inl (by simp [hb])
        · cases j with
          | zero =>
            simp only [List.getD_cons_zero] at hb
            exact Or.inl (by simp [hb])
          | succ j2 =>
            exact Or.inr ⟨j2, by omega, by simpa using hb⟩

/-! ### Claim theorems -/

/-- C3: the code does NOT drain the two streams concurrently — the embedded
drain consumes standard output to end-of-file before reading a single
standard-error line, so for every run the log is exactly all stdout lines
followed by all stderr lines.  This is the sequential read the spec calls a
correctness bug; with the claim's concurrency requirement the stderr lines
could not universally sit after the entire stdout stream. -/
theorem drain_reads_stdout_before_stderr (v : Bool) (outL errL : List String) :
    drain_log_lines v outL errL = outL ++ errL := by
  simp [drain_log_lines, drain_map_fst]

/-- C4: after a run whose process exits with code 0, the orchestrator
re-reads the log file it has just written (the `readLog` effect on the same
path, after the `writeLog` of the same lines), classifies the run as a
reported failure exactly when that log contains "Simulation stopped", and a
reported failure is never the success outcome. -/
theorem zero_exit_log_reported_failure (env : RunEnv) (m : String) (exe : Option FPath)
    (tag : String) (v : Bool) (mr bf : FPath) (es : List Effect) (cmd : List String)
    (hb : build_cmd env m exe tag mr bf = (es, .ok cmd))
    (hc : (env.runProc cmd).code = 0) :
    (run_sfincs_after env m exe tag v mr bf).1 =
      es ++ [.spawn cmd,
        .writeLog (mr ++ ["sfincs_log.txt"])
          (drain_log_lines v (env.runProc cmd).out (env.runProc cmd).err),
        .readLog (mr ++ ["sfincs_log.txt"])] ∧
    (run_sfincs_after env m exe tag v mr bf).2 =
      (if hasStopped (String.join
          (drain_log_lines v (env.runProc cmd).out (env.runProc cmd).err)) then
        .error (.reportedFailure (mr ++ ["sfincs_log.txt"]))
      else .ok ()) ∧
    (Except.error (RunError.reportedFailure (mr ++ ["sfincs_log.txt"])) ≠
      (Except.ok () : Except RunError Unit)) := by
  refine ⟨?_, ?_, by simp⟩
  · simp [run_sfincs_after, hb, hc]
  · simp [run_sfincs_after, hb, hc, classify_return]

/-- Abstract environment for the C4 witness: every spawned process reports
exit code 0 with "Simulation stopped" on standard output. -/
def wEnvC4 : RunEnv :=
  ⟨fun _ => true, fun _ => none, "Linux", fun _ => ⟨["Simulation stopped\n"], [], 0⟩⟩

/-- Witness for C4 at a concrete docker run whose log records the failure. -/
theorem zero_exit_log_reported_failure_witness :
    (run_sfincs_after wEnvC4 "docker" none "t" true [] []).1 =
      [Effect.probe ["docker", "stats", "--no-stream"]] ++
        [.spawn ["docker", "run", "-v/://data", "-w", "/data/.", "deltares/sfincs-cpu:t"],
          .writeLog (([] : FPath) ++ ["sfincs_log.txt"])
            (drain_log_lines true
              (wEnvC4.runProc
                ["docker", "run", "-v/://data", "-w", "/data/.", "deltares/sfincs-cpu:t"]).out
              (wEnvC4.runProc
                ["docker", "run", "-v/://data", "-w", "/data/.", "deltares/sfincs-cpu:t"]).err),
          .readLog (([] : FPath) ++ ["sfincs_log.txt"])] ∧
    (run_sfincs_after wEnvC4 "docker" none "t" true [] []).2 =
      (if hasStopped (String.join
          (drain_log_lines true
            (wEnvC4.runProc
              ["docker", "run", "-v/://data", "-w", "/data/.", "deltares/sfincs-cpu:t"]).out
            (wEnvC4.runProc
              ["docker", "run", "-v/://data", "-w", "/data/.", "deltares/sfincs-cpu:t"]).err)) then
        .error (.reportedFailure (([] : FPath) ++ ["sfincs_log.txt"]))
      else .ok ()) ∧
    (Except.error (RunError.reportedFailure (([] : FPath) ++ ["sfincs_log.txt"])) ≠
      (Except.ok () : Except RunError Unit)) :=
  zero_exit_log_reported_failure wEnvC4 "docker" none "t" true [] []
    [Effect.probe ["docker", "stats", "--no-stream"]]
    ["docker", "run", "-v/://data", "-w", "/data/.", "deltares/sfincs-cpu:t"]
    (by rfl) (by rfl)

/-- C5: exit code 127 is classified as the distinct backend-missing failure
(carrying the backend name), and any other nonzero exit code `c` is
classified as the general failed-run error carrying `c`; the classification
is the same for every backend `m`. -/
theorem nonzero_exit_classification (m : String) (lf : FPath) (log : String) (c : Int) :
    (c = 127 → classify_return m lf c log = .error (.backendNotFound m)) ∧
    (c ≠ 0 → c ≠ 127 → classify_return m lf c log = .error (.nonZeroExit c)) := by
  constructor
  · intro h; subst h; simp [classify_return]
  · intro h0 h127; simp [classify_return, h0, h127]

/-- Witness for C5: exit code 127 on the docker backend, and exit code 5 on
the exe backend. -/
theorem nonzero_exit_classification_witness :
    classify_return "docker" [] 127 "" = .error (.backendNotFound "docker") ∧
    classify_return "exe" [] 5 "" = .error (.nonZeroExit 5) :=
  ⟨(nonzero_exit_classification "docker" [] "" 127).1 rfl,
   (nonzero_exit_classification "exe" [] "" 5).2 (by decide) (by decide)⟩

/-- C6: for every backend selector outside the three supported variants, the
orchestrator fails with the configuration error (the `ValueError` of line 40)
having performed no effect at all: no filesystem access and no spawned
process. -/
theorem unsupported_run_method_no_effects (env : RunEnv) (inp : FPath) (m : String)
    (exe : Option FPath) (tag : String) (v : Bool)
    (h : m ∉ (["exe", "docker", "apptainer"] : List String)) :
    run_sfincs env inp m exe tag v = ([], .error (.configurationError m)) := by
  simp [run_sfincs, h]

/-- Abstract environment for the C6 witness. -/
def wEnvC6 : RunEnv := ⟨fun _ => true, fun _ => none, "Linux", fun _ => ⟨[], [], 0⟩⟩

/-- Witness for C6 at the unsupported selector "podman". -/
theorem unsupported_run_method_no_effects_witness :
    run_sfincs wEnvC6 ["m", "sfincs.inp"] "podman" none "t" true
      = ([], .error (.configurationError "podman")) :=
  unsupported_run_method_no_effects wEnvC6 ["m", "sfincs.inp"] "podman" none "t" true
    (by decide)

/-- C1: whenever the scenario config parses and the config file is deep
enough for the walk, `get_sfincs_basemodel_root` returns exactly the
directory obtained by walking up N levels from the config file's own
directory, where N is the spec's maximum parent-marker count over
file-valued entries; when N is 0 the result is the config file's own
directory. -/
theorem get_sfincs_basemodel_root_spec (parse : FPath → Option Config) (p : FPath)
    (cfg : Config) (h1 : parse p = some cfg) (h2 : spec_max_markers cfg < p.length) :
    get_sfincs_basemodel_root parse p = .ok (walk_up p.dropLast (spec_max_markers cfg)) ∧
    (spec_max_markers cfg = 0 → get_sfincs_basemodel_root parse p = .ok p.dropLast) := by
  have hle : spec_max_markers cfg + 1 ≤ p.length := h2
  have hpi : parentsIdx p (maxUpMarkers cfg) =
      some (p.take (p.length - (spec_max_markers cfg + 1))) := by
    rw [maxUpMarkers_eq_spec]; simp [parentsIdx, hle]
  have hwalk : walk_up p.dropLast (spec_max_markers cfg) =
      p.take (p.length - (spec_max_markers cfg + 1)) := by
    rw [walk_up, List.length_dropLast, List.dropLast_eq_take, List.take_take]
    congr 1
    omega
  have hmain : get_sfincs_basemodel_root parse p =
      .ok (walk_up p.dropLast (spec_max_markers cfg)) := by
    simp [get_sfincs_basemodel_root, h1, hpi, hwalk]
  refine ⟨hmain, fun h0 => ?_⟩
  rw [hmain, h0, walk_up]
  simp

/-- Witness for C1: a config one directory level below the static files, via
a single parent-directory marker. -/
theorem get_sfincs_basemodel_root_spec_witness :
    get_sfincs_basemodel_root
        (fun q => if q = ["models", "event1", "scenario.inp"]
          then some [("depfile", "../static/topo.tif")] else none)
        ["models", "event1", "scenario.inp"] =
      .ok (walk_up (["models", "event1", "scenario.inp"] : FPath).dropLast
        (spec_max_markers [("depfile", "../static/topo.tif")])) ∧
    (spec_max_markers [("depfile", "../static/topo.tif")] = 0 →
      get_sfincs_basemodel_root
        (fun q => if q = ["models", "event1", "scenario.inp"]
          then some [("depfile", "../static/topo.tif")] else none)
        ["models", "event1", "scenario.inp"] =
      .ok (["models", "event1", "scenario.inp"] : FPath).dropLast) :=
  get_sfincs_basemodel_root_spec
    (fun q => if q = ["models", "event1", "scenario.inp"]
      then some [("depfile", "../static/topo.tif")] else none)
    ["models", "event1", "scenario.inp"]
    [("depfile", "../static/topo.tif")] (by rfl) (by decide)

/-- C8: with verbose enabled, the stdout line at index `i` is echoed to the
console exactly when some line at index at most `i` is a banner line (a line
of dashes after stripping whitespace) — so every line strictly before the
first banner is withheld and every line from the banner on is echoed — and
every stdout line, echoed or not, is written to the log. -/
theorem stdout_banner_filter (lines : List String) (i : Nat) (h : i < lines.length) :
    ((((drainStdout true false lines).map Prod.snd).getD i false = true) ↔
      ∃ j, j ≤ i ∧ bannerLine (lines.getD j "") = true) ∧
    (drainStdout true false lines).map Prod.fst = lines := by
  constructor
  · rw [drain_flags_iff lines false i h]
    simp
  · exact drain_map_fst true false lines

/-- Witness for C8 on a concrete three-line stream whose second line is the
banner. -/
theorem stdout_banner_filter_witness :
    ((((drainStdout true false ["noise", "----", "after"]).map Prod.snd).getD 2 false = true) ↔
      ∃ j, j ≤ 2 ∧ bannerLine ((["noise", "----", "after"] : List String).getD j "") = true) ∧
    (drainStdout true false ["noise", "----", "after"]).map Prod.fst =
      ["noise", "----", "after"] :=
  stdout_banner_filter ["noise", "----", "after"] 2 (by decide)

/-- C7: a missing referenced file never aborts archive creation — whenever
the config parses, the base folder resolves, and the collected files sit
below it, the archive is produced and contains exactly the scenario config
file plus every referenced file that exists, while each missing referenced
file only yields a warning entry. -/
theorem archive_tolerates_missing_files (parse : FPath → Option Config)
    (isFile : FPath → Bool) (inp : FPath) (cfg : Config) (base : FPath)
    (hb : get_sfincs_basemodel_root parse inp = .ok base)
    (hp : parse inp = some cfg)
    (hpre : ∀ f ∈ inp :: existingRefFiles isFile inp.dropLast cfg,
      base.isPrefixOf f = true) :
    create_sfincs_model_archive parse isFile inp =
      .ok ⟨(inp :: existingRefFiles isFile inp.dropLast cfg).map
            fun f => (f, f.drop base.length),
        missingRefEntries isFile inp.dropLast cfg⟩ := by
  have hcf := collect_files_eq isFile inp.dropLast cfg
  have hae := arcEntries_ok base (inp :: existingRefFiles isFile inp.dropLast cfg) hpre
  simp [create_sfincs_model_archive, hb, hp, hcf, hae, Except.map]

/-- Parse function for the C7 witness: a config with one existing and one
missing referenced file. -/
def wParseC7 : FPath → Option Config := fun q =>
  if q = ["m", "e", "s.inp"]
    then some [("depfile", "../a.tif"), ("qfile", "missing.txt")] else none

/-- File-existence oracle for the C7 witness: only the static file exists. -/
def wIsFileC7 : FPath → Bool := fun p => p == ["m", "a.tif"]

/-- Witness for C7: the archive is produced despite the missing
`missing.txt`, holding the config and the one existing referenced file. -/
theorem archive_tolerates_missing_files_witness :
    create_sfincs_model_archive wParseC7 wIsFileC7 ["m", "e", "s.inp"] =
      .ok ⟨((["m", "e", "s.inp"] : FPath) ::
            existingRefFiles wIsFileC7 (["m", "e", "s.inp"] : FPath).dropLast
              [("depfile", "../a.tif"), ("qfile", "missing.txt")]).map
            fun f => (f, f.drop (["m"] : FPath).length),
        missingRefEntries wIsFileC7 (["m", "e", "s.inp"] : FPath).dropLast
          [("depfile", "../a.tif"), ("qfile", "missing.txt")]⟩ :=
  archive_tolerates_missing_files wParseC7 wIsFileC7 ["m", "e", "s.inp"]
    [("depfile", "../a.tif"), ("qfile", "missing.txt")] ["m"]
    (by rfl) (by rfl) (by decide)

/-- C9: for every call with a supported backend whose supplied scenario file
exists, the orchestrator stats the supplied file but then reads the config
from the fixed name `sfincs.inp` in that file's directory; when the supplied
filename is not `sfincs.inp` the file read differs from the file the caller
named, and if no parseable `sfincs.inp` is there the run fails even though
the supplied file passed the existence check. -/
theorem base_root_read_from_fixed_name (env : RunEnv) (inp : FPath) (m : String)
    (exe : Option FPath) (tag : String) (v : Bool)
    (hm : m ∈ (["exe", "docker", "apptainer"] : List String))
    (hf : env.isFile inp = true)
    (hl : inp.getLast? ≠ some "sfincs.inp") :
    (run_sfincs env inp m exe tag v).1.take 2 =
      [.statFile inp, .readConfig (inp.dropLast ++ ["sfincs.inp"])] ∧
    inp.dropLast ++ ["sfincs.inp"] ≠ inp ∧
    (env.parse (inp.dropLast ++ ["sfincs.inp"]) = none →
      (run_sfincs env inp m exe tag v).2 =
        .error (.parseError (inp.dropLast ++ ["sfincs.inp"]))) := by
  have hcond : ¬(¬m = "exe" ∧ ¬m = "docker" ∧ ¬m = "apptainer") := by
    simp only [List.mem_cons, List.mem_singleton, List.not_mem_nil, or_false] at hm
    tauto
  have hne : inp.dropLast ++ ["sfincs.inp"] ≠ inp := by
    intro he
    have := congrArg List.getLast? he
    rw [List.getLast?_concat] at this
    exact hl this.symm
  refine ⟨?_, hne, ?_⟩
  · cases hres : get_sfincs_basemodel_root env.parse (inp.dropLast ++ ["sfincs.inp"]) with
    | error e => cases e <;> simp [run_sfincs, hf, hres, hcond]
    | ok base => simp [run_sfincs, hf, hres, hcond]
  · intro hpn
    have hres : get_sfincs_basemodel_root env.parse (inp.dropLast ++ ["sfincs.inp"]) =
        .error .parseError := by
      simp [get_sfincs_basemodel_root, hpn]
    simp [run_sfincs, hf, hres, hcond]

/-- Abstract environment for the C9 witness: the supplied scenario file
exists but no config parses — in particular there is no `sfincs.inp`. -/
def wEnvC9 : RunEnv := ⟨fun _ => true, fun _ => none, "Linux", fun _ => ⟨[], [], 0⟩⟩

/-- Witness for C9: a caller-supplied `scenario.inp` makes the orchestrator
read `sfincs.inp` instead and fail. -/
theorem base_root_read_from_fixed_name_witness :
    (run_sfincs wEnvC9 ["m", "scenario.inp"] "docker" none "t" true).1.take 2 =
      [.statFile ["m", "scenario.inp"],
        .readConfig ((["m", "scenario.inp"] : FPath).dropLast ++ ["sfincs.inp"])] ∧
    (["m", "scenario.inp"] : FPath).dropLast ++ ["sfincs.inp"] ≠ ["m", "scenario.inp"] ∧
    (wEnvC9.parse ((["m", "scenario.inp"] : FPath).dropLast ++ ["sfincs.inp"]) = none →
      (run_sfincs wEnvC9 ["m", "scenario.inp"] "docker" none "t" true).2 =
        .error (.parseError ((["m", "scenario.inp"] : FPath).dropLast ++ ["sfincs.inp"]))) :=
  base_root_read_from_fixed_name wEnvC9 ["m", "scenario.inp"] "docker" none "t" true
    (by decide) (by rfl) (by decide)

/-- C10: when a file-valued entry resolves to an existing file that is not
below the computed base folder, archive creation aborts with the
`relative_to` failure — the `ValueError` escaping the zip-writing loop, not
one of the design's classified errors, and not a warning-and-omit. -/
theorem archive_aborts_on_file_outside_base (parse : FPath → Option Config)
    (isFile : FPath → Bool) (inp : FPath) (cfg : Config) (base : FPath) (k v : String)
    (hb : get_sfincs_basemodel_root parse inp = .ok base)
    (hp : parse inp = some cfg)
    (hm : (k, v) ∈ cfg)
    (hk : hasFileSub k.data = true)
    (he : isFile (resolveRel inp.dropLast v) = true)
    (ho : base.isPrefixOf (resolveRel inp.dropLast v) = false) :
    ∃ f, create_sfincs_model_archive parse isFile inp =
      .error (.relativeToError f base) := by
  have hmem := mem_collect_files isFile inp.dropLast cfg k v hm hk he
  have hex : ∃ f ∈ inp :: (collect_files isFile inp.dropLast cfg).1,
      base.isPrefixOf f = false :=
    ⟨resolveRel inp.dropLast v, by simp [hmem], ho⟩
  rcases arcEntries_err base _ hex with ⟨g, hg⟩
  exact ⟨g, by simp [create_sfincs_model_archive, hb, hp, hg, Except.map]⟩

/-- Parse function for the C10 witness: one file-valued entry referencing an
absolute path outside the base folder. -/
def wParseC10 : FPath → Option Config := fun q =>
  if q = ["m", "s.inp"] then some [("depfile", "/elsewhere/a.tif")] else none

/-- Witness for C10: the referenced file exists but lies outside the base
folder, so archive creation aborts. -/
theorem archive_aborts_on_file_outside_base_witness :
    ∃ f, create_sfincs_model_archive wParseC10 (fun _ => true) ["m", "s.inp"] =
      .error (.relativeToError f ["m"]) :=
  archive_aborts_on_file_outside_base wParseC10 (fun _ => true) ["m", "s.inp"]
    [("depfile", "/elsewhere/a.tif")] ["m"] "depfile" "/elsewhere/a.tif"
    (by rfl) (by rfl) (by decide) (by decide) (by rfl) (by decide)

/-- Parse function for the C2 scenario: the config at
`/models/event1/scenario.inp` with the single entry
`depfile = ../../static/topo.tif`. -/
def exParseC2 : FPath → Option Config := fun q =>
  if q = ["models", "event1", "scenario.inp"]
    then some [("depfile", "../../static/topo.tif")] else none

/-- File-existence oracle for the C2 scenario: the referenced dependency
(resolving to `/static/topo.tif`) exists. -/
def exIsFileC2 : FPath → Bool := fun p => p == ["static", "topo.tif"]

/-- C2, counterexample: on the claimed scenario the resolver does NOT return
`/models` (two `../` markers walk up two levels from `/models/event1`, to
`/`), so the claimed conjunction fails. -/
theorem scenario_example_cex :
    ¬ (get_sfincs_basemodel_root exParseC2 ["models", "event1", "scenario.inp"] =
        .ok ["models"] ∧
      ∃ r, create_sfincs_model_archive exParseC2 exIsFileC2
          ["models", "event1", "scenario.inp"] = .ok r ∧
        (["models", "event1", "scenario.inp"], ["event1", "scenario.inp"]) ∈ r.entries ∧
        (["static", "topo.tif"], ["static", "topo.tif"]) ∈ r.entries) := by
  rintro ⟨h1, -⟩
  have h2 : get_sfincs_basemodel_root exParseC2 ["models", "event1", "scenario.inp"] =
      .ok [] := rfl
  rw [h2] at h1
  injection h1 with h3
  exact absurd h3 (by decide)

/-- C2, amended: on the scenario the resolver returns `/` (the root), and the
archive stores the config under `models/event1/scenario.inp` and the
dependency under `static/topo.tif`, with no warnings. -/
theorem scenario_example_actual :
    get_sfincs_basemodel_root exParseC2 ["models", "event1", "scenario.inp"] = .ok [] ∧
    create_sfincs_model_archive exParseC2 exIsFileC2 ["models", "event1", "scenario.inp"] =
      .ok ⟨[(["models", "event1", "scenario.inp"], ["models", "event1", "scenario.inp"]),
            (["static", "topo.tif"], ["static", "topo.tif"])], []⟩ :=
  ⟨rfl, rfl⟩

